import Mathlib

/-!
Shallow embedding of the file-flow backend (TypeScript AWS Lambda handlers).

Each definition mirrors one function of the source.  JavaScript values that
can be `undefined` are modelled with `Option`; JavaScript truthiness on
strings and numbers (empty string and zero are falsy) is modelled
explicitly.  Thrown errors are modelled with `Except` carrying a `JsError`
(the error's `name` and `message`).  JavaScript numbers are modelled with
`Nat`/`Int`/`ℚ` (exact arithmetic).  External effects (S3, Step Functions,
the signer, `Date.now()`, `Math.random()`) are passed in as explicit
arguments, so every handler is a pure function of its inputs plus the
outcomes of its external calls.
-/

/-- A JavaScript `Error` value: its `name` and `message`. -/
structure JsError where
  name : String
  message : String
deriving DecidableEq

/-- JavaScript truthiness of a possibly-undefined string:
`undefined` and the empty string are falsy. -/
def truthyStr : Option String → Bool
  | none => false
  | some s => s != ""

/-- JavaScript truthiness of a possibly-undefined natural number:
`undefined` and `0` are falsy. -/
def truthyNat : Option Nat → Bool
  | none => false
  | some n => n != 0

/-- JavaScript truthiness of a possibly-undefined integer:
`undefined` and `0` are falsy. -/
def truthyInt : Option Int → Bool
  | none => false
  | some n => n != 0

/-- JavaScript `String.prototype.startsWith`, modelled on the character
list of the string. -/
def jsStartsWith (s pat : String) : Bool :=
  pat.data.isPrefixOf s.data

/-- JavaScript `String.prototype.endsWith`, modelled on the character
list of the string. -/
def jsEndsWith (s pat : String) : Bool :=
  pat.data.reverse.isPrefixOf s.data.reverse

/-- JavaScript `String.prototype.includes`, modelled on character lists. -/
def charListContains : List Char → List Char → Bool
  | [], pat => pat.isEmpty
  | c :: rest, pat => pat.isPrefixOf (c :: rest) || charListContains rest pat

/-- JavaScript `s.includes(pat)`. -/
def containsSubstring (s pat : String) : Bool :=
  charListContains s.data pat.data

/-- JavaScript `String.prototype.replace` with a plain-string pattern:
replaces only the first occurrence. -/
def charListReplaceFirst : List Char → List Char → List Char → List Char
  | [], pat, repl => if pat.isEmpty then repl else []
  | c :: rest, pat, repl =>
    if pat.isPrefixOf (c :: rest) then repl ++ (c :: rest).drop pat.length
    else c :: charListReplaceFirst rest pat repl

/-- JavaScript `s.replace(pat, repl)` for a plain-string `pat`
(first occurrence only). -/
def replaceFirstStr (s pat repl : String) : String :=
  String.mk (charListReplaceFirst s.data pat.data repl.data)

/-- JavaScript `s.replace(re, repl)` for the regex matching a final dot
followed by one or more non-dot characters at the end of the string
(the extension-replacement idiom of the resize and exposure handlers).
If the string has no such extension it is returned unchanged. -/
def replaceLastExt (s repl : String) : String :=
  let r := s.data.reverse
  let ext := r.takeWhile (fun c => c != '.')
  let rest := r.dropWhile (fun c => c != '.')
  match rest with
  | '.' :: before => if ext.isEmpty then s else String.mk (before.reverse ++ repl.data)
  | _ => s

/-- From `types/index.ts`: `MAX_FILE_SIZE = 25 * 1024 * 1024`. -/
def MAX_FILE_SIZE : Nat := 25 * 1024 * 1024

/-- From `types/index.ts`: the allowed content types. -/
def ALLOWED_CONTENT_TYPES : List String :=
  ["image/jpeg", "image/png", "image/webp"]

/-- From `types/index.ts`: `isAllowedContentType`. -/
def isAllowedContentType (t : String) : Bool :=
  ALLOWED_CONTENT_TYPES.contains t

/-- From `types/index.ts`: `ValidationResult`. -/
structure ValidationResult where
  isValid : Bool
  contentType : Option String
  size : Option Nat
  error : Option String
deriving DecidableEq

/-- The metadata returned by a successful `headObject` call
(`ContentType` and `ContentLength` may be absent). -/
structure HeadObjectMeta where
  contentType : Option String
  contentLength : Option Nat
deriving DecidableEq

/-- From `handlers/validator.ts`: the validator handler body, as a function
of the outcome of the `headObject` call.  A thrown error whose name is
`NoSuchKey` is converted to an invalid result; any other error is rethrown
wrapped in a new `Error` (name `Error`) with a `Validation failed:` message. -/
def validatorHandler (headOutcome : Except JsError HeadObjectMeta) :
    Except JsError ValidationResult :=
  match headOutcome with
  | Except.error e =>
    if e.name == "NoSuchKey" then
      Except.ok ⟨false, none, none, some "File not found"⟩
    else
      Except.error ⟨"Error", "Validation failed: " ++ e.message⟩
  | Except.ok m =>
    if !truthyStr m.contentType then
      Except.ok ⟨false, none, none, some "File has no content type"⟩
    else
      let ct := m.contentType.getD ""
      if !isAllowedContentType ct then
        Except.ok ⟨false, some ct, none, some ("Invalid content type: " ++ ct)⟩
      else if truthyNat m.contentLength && m.contentLength.getD 0 > MAX_FILE_SIZE then
        Except.ok ⟨false, some ct, m.contentLength,
          some ("File size (" ++ toString (m.contentLength.getD 0) ++
            ") exceeds maximum (" ++ toString MAX_FILE_SIZE ++ ")")⟩
      else if !jsStartsWith ct "image/" then
        Except.ok ⟨false, some ct, none, some "File is not a valid image"⟩
      else
        Except.ok ⟨true, some ct, m.contentLength, none⟩

/-- From `handlers/exposure.ts`: `Math.max(-1, Math.min(1, adjustment))`. -/
def safeAdjustment (adjustment : ℚ) : ℚ :=
  max (-1) (min 1 adjustment)

/-- From `handlers/exposure.ts`: the gamma parameter of the exposure
transform. -/
def exposureGamma (adjustment : ℚ) : ℚ :=
  if 0 ≤ safeAdjustment adjustment then 1 - safeAdjustment adjustment * (0.5 : ℚ)
  else 1 + |safeAdjustment adjustment| * (0.8 : ℚ)

/-- From `handlers/exposure.ts`: the brightness multiplier of the exposure
transform. -/
def exposureBrightness (adjustment : ℚ) : ℚ :=
  1 + safeAdjustment adjustment * (0.3 : ℚ)

/-- From `handlers/exposure.ts`: the contrast multiplier of the exposure
transform. -/
def exposureContrast (adjustment : ℚ) : ℚ :=
  if 0 ≤ safeAdjustment adjustment then 1 + safeAdjustment adjustment * (0.1 : ℚ)
  else 1 - |safeAdjustment adjustment| * (0.1 : ℚ)

/-- From `handlers/exposure.ts`: the second argument of `.linear`,
`-(contrast - 1) * 128`. -/
def exposureLinearOffset (adjustment : ℚ) : ℚ :=
  -(exposureContrast adjustment - 1) * 128

/-- From `handlers/exposure.ts`: derivation of the output key.
The in-place branch is taken when the key merely CONTAINS `processed/`
(`event.key.includes`), and the other branch replaces the first occurrence
of `uploads/`. -/
def exposureOutputKey (key : String) : String :=
  if containsSubstring key "processed/" then
    replaceLastExt key "-exposure-adjusted.jpg"
  else
    replaceLastExt (replaceFirstStr key "uploads/" "processed/")
      "-exposure-adjusted.jpg"

/-- The exposure output-key rule as the spec words it: the in-place branch
is taken when the key lives under (starts with) `processed/`.  Stated for
comparison with `exposureOutputKey`, which is translated from the source. -/
def exposureOutputKeySpec (key : String) : String :=
  if jsStartsWith key "processed/" then
    replaceLastExt key "-exposure-adjusted.jpg"
  else
    replaceLastExt (replaceFirstStr key "uploads/" "processed/")
      "-exposure-adjusted.jpg"

/-- JavaScript `a || b || dflt` over possibly-undefined numbers:
the first truthy value wins, `dflt` is the final literal fallback. -/
def jsOrNat (a b : Option Nat) (dflt : Nat) : Nat :=
  if truthyNat a then a.getD 0 else if truthyNat b then b.getD 0 else dflt

/-- From the resize handler (`imageProcessor.resize`): computation of the
target dimensions handed to the encoder.  `width`/`height` are the
requested dimensions of the event, `metaW`/`metaH` the decoded source
dimensions (absent when the decoder reports none).  Division, `Math.min`
and `Math.round` are modelled exactly over `ℚ` (`round x = ⌊x + 1/2⌋`,
which matches `Math.round` on the nonnegative values arising here). -/
def resizeTargetDimensions (width height : Option Nat) (maintainAspect : Bool)
    (metaW metaH : Option Nat) : ℤ × ℤ :=
  let tw : ℤ := (jsOrNat width metaW 1920 : ℤ)
  let th : ℤ := (jsOrNat height metaH 1080 : ℤ)
  if maintainAspect && truthyNat metaW && truthyNat metaH then
    let mw : ℚ := (metaW.getD 0 : ℚ)
    let mh : ℚ := (metaH.getD 0 : ℚ)
    let aspect : ℚ := mw / mh
    if truthyNat width && !truthyNat height then
      (tw, round ((width.getD 0 : ℚ) / aspect))
    else if truthyNat height && !truthyNat width then
      (round ((height.getD 0 : ℚ) * aspect), th)
    else if truthyNat width && truthyNat height then
      let wScale : ℚ := (width.getD 0 : ℚ) / mw
      let hScale : ℚ := (height.getD 0 : ℚ) / mh
      let scale : ℚ := min wScale hScale
      (round (mw * scale), round (mh * scale))
    else (tw, th)
  else (tw, th)

/-- From `shared/s3-utils.ts`: the filename sanitization character class
`[a-zA-Z0-9.-]` of `generateFileKey` (characters outside it are replaced
with an underscore). -/
def allowedKeyChar (c : Char) : Bool :=
  ('a' ≤ c && c ≤ 'z') || ('A' ≤ c && c ≤ 'Z') ||
  ('0' ≤ c && c ≤ '9') || c == '.' || c == '-'

/-- From `shared/s3-utils.ts`: `filename.replace(/[^a-zA-Z0-9.-]/g, _)`
with an underscore as the replacement. -/
def sanitizeFilename (filename : String) : String :=
  String.mk (filename.data.map (fun c => if allowedKeyChar c then c else '_'))

/-- From `shared/s3-utils.ts`: `generateFileKey`.  `Date.now()` and the
`Math.random()`-derived base-36 token are passed in explicitly
(`nowMs`, `randomId`); the default prefix at call sites is `uploads`.
The function is total: it returns a key for every string input. -/
def generateFileKey (filename : String) (pfx : String) (nowMs : Nat)
    (randomId : String) : String :=
  pfx ++ "/" ++ toString nowMs ++ "-" ++ randomId ++ "-" ++ sanitizeFilename filename

/-- From `types/index.ts`: `UploadRequest`, after `JSON.parse` — every
field may be absent in the request body. -/
structure UploadRequest where
  filename : Option String
  contentType : Option String
  fileSize : Option Int
deriving DecidableEq

/-- The observable part of the presign handler response: the status code,
the `error` field of a 400 body, and the `uploadUrl`/`key`/`expiresAt`
fields of a 200 body.  `expiresAt` is modelled as the epoch-millisecond
instant that the handler formats as an ISO string. -/
structure PresignResult where
  statusCode : Nat
  error : Option String
  uploadUrl : Option String
  key : Option String
  expiresAtMs : Option Nat
deriving DecidableEq

/-- The 400 message for missing fields in `handlers/presigned-url.ts`. -/
def missingFieldsMsg : String :=
  "Missing required fields: filename, contentType, fileSize"

/-- The 400 message for a disallowed content type in
`handlers/presigned-url.ts`. -/
def invalidTypeMsg : String :=
  "Invalid content type. Allowed: " ++ String.intercalate ", " ALLOWED_CONTENT_TYPES

/-- The 400 message for an oversized file in `handlers/presigned-url.ts`
(`MAX_FILE_SIZE / 1024 / 1024` is exactly 25). -/
def sizeExceedsMsg : String :=
  "File size exceeds maximum of " ++ toString (MAX_FILE_SIZE / 1024 / 1024) ++ "MB"

/-- From `handlers/presigned-url.ts`: the handler body on a parsed request.
`nowMs` is `Date.now()` at response time, `randomId` the random token used
by `generateFileKey`, and `signedUrl` the URL returned by `getSignedUrl`. -/
def presignedUrlHandler (nowMs : Nat) (randomId signedUrl : String)
    (req : UploadRequest) : PresignResult :=
  if !truthyStr req.filename || !truthyStr req.contentType || !truthyInt req.fileSize then
    ⟨400, some missingFieldsMsg, none, none, none⟩
  else if !isAllowedContentType (req.contentType.getD "") then
    ⟨400, some invalidTypeMsg, none, none, none⟩
  else if req.fileSize.getD 0 > (MAX_FILE_SIZE : Int) then
    ⟨400, some sizeExceedsMsg, none, none, none⟩
  else
    ⟨200, none, some signedUrl,
      some (generateFileKey (req.filename.getD "") "uploads" nowMs randomId),
      some (nowMs + 3600 * 1000)⟩

/-- One record of an S3 object-created notification, as consumed by the
orchestrator (`record.s3.bucket.name`, `record.s3.object.key`,
`record.s3.object.size`, `record.eventTime`). -/
structure S3EventRecord where
  bucketName : String
  objectKey : String
  objectSize : Nat
  eventTime : String
deriving DecidableEq

/-- From `types/index.ts`: `ProcessingInput`. -/
structure ProcessingInput where
  bucket : String
  key : String
  contentType : String
  size : Nat
  uploadedAt : String
deriving DecidableEq

/-- Value of a hexadecimal digit, or `none` for a non-hex character
(code points 48-57 are the digits, 97-102 and 65-70 the letter digits). -/
def hexDigitValue (c : Char) : Option Nat :=
  let n := c.toNat
  if 48 ≤ n ∧ n ≤ 57 then some (n - 48)
  else if 97 ≤ n ∧ n ≤ 102 then some (n - 87)
  else if 65 ≤ n ∧ n ≤ 70 then some (n - 55)
  else none

/-- Percent-decoding as performed by `decodeURIComponent`, modelled at the
byte level: every `%XX` becomes the character with code `XX`, a `%` not
followed by two hex digits is a decoding error (`URIError`).  Multi-byte
UTF-8 recombination is not modelled; the keys relevant here are ASCII. -/
def percentDecode : List Char → Option (List Char)
  | [] => some []
  | '%' :: a :: b :: rest =>
    match hexDigitValue a, hexDigitValue b with
    | some x, some y => (percentDecode rest).map (fun l => Char.ofNat (16 * x + y) :: l)
    | _, _ => none
  | ['%'] => none
  | ['%', _] => none
  | c :: rest => (percentDecode rest).map (fun l => c :: l)

/-- From `handlers/orchestrator.ts`:
`decodeURIComponent(object.key.replace(/\+/g, space))`. -/
def decodeS3Key (k : String) : Option String :=
  (percentDecode (k.data.map (fun c => if c == '+' then ' ' else c))).map String.mk

/-- From `handlers/orchestrator.ts` (`stepFunctionsService.startExecution`):
the string fed to the MD5 hash when deriving the execution name —
`bucket-key-Date.now()`.  Note that the delivery-time timestamp is part
of the hashed string. -/
def executionHashInput (bucket key : String) (nowMs : Nat) : String :=
  bucket ++ "-" ++ key ++ "-" ++ toString nowMs

/-- From `handlers/orchestrator.ts`: the execution name,
`img-process-` followed by the hex MD5 digest of `executionHashInput`.
The digest function itself is passed in as `md5hex`. -/
def executionName (md5hex : String → String) (bucket key : String)
    (nowMs : Nat) : String :=
  "img-process-" ++ md5hex (executionHashInput bucket key nowMs)

/-- The `ProcessingInput` the orchestrator builds for a record whose
decoded key is `decodedKey` (content type hard-coded to `image/jpeg`). -/
def mkProcessingInput (r : S3EventRecord) (decodedKey : String) : ProcessingInput :=
  ⟨r.bucketName, decodedKey, "image/jpeg", r.objectSize, r.eventTime⟩

/-- From `handlers/orchestrator.ts`: `processS3Record`.  `service` is the
outcome of `service.startExecution` on a given input.  The first component
of the result is the list of `startExecution` invocations made (empty when
the record is skipped), the second the completion outcome: a thrown
`ExecutionAlreadyExists` is absorbed, any other error propagates. -/
def processS3Record (service : ProcessingInput → Except JsError String)
    (r : S3EventRecord) : List ProcessingInput × Except JsError Unit :=
  match decodeS3Key r.objectKey with
  | none => ([], Except.error ⟨"URIError", "URI malformed"⟩)
  | some decodedKey =>
    if !jsStartsWith decodedKey "uploads/" then ([], Except.ok ())
    else if jsEndsWith decodedKey "/" then ([], Except.ok ())
    else
      let input := mkProcessingInput r decodedKey
      match service input with
      | Except.ok _ => ([input], Except.ok ())
      | Except.error e =>
        if e.name == "ExecutionAlreadyExists" then ([input], Except.ok ())
        else ([input], Except.error e)

/-- From `handlers/orchestrator.ts`: the batch driver.  Every record is
processed through `processS3Record` with a `.catch` that converts a
per-record failure into a resolved promise, and the results are joined
with `Promise.all` — so the handler itself never throws (the result type
contains no error case), and each entry of the result is the invocation
log of one record. -/
def orchestratorHandler (service : ProcessingInput → Except JsError String)
    (records : List S3EventRecord) : List (List ProcessingInput × Unit) :=
  records.map (fun r => ((processS3Record service r).1, ()))

/-- All `startExecution` inputs sent during one batch run. -/
def startedInputs (service : ProcessingInput → Except JsError String)
    (records : List S3EventRecord) : List ProcessingInput :=
  ((orchestratorHandler service records).map Prod.fst).flatten

/-! Helper lemmas (shared; not tied to a single claim). -/

lemma safeAdjustment_mem (a : ℚ) :
    -1 ≤ safeAdjustment a ∧ safeAdjustment a ≤ 1 := by
  unfold safeAdjustment
  constructor
  · exact le_max_left _ _
  · exact max_le (by norm_num) (min_le_left _ _)

lemma safeAdjustment_of_mem {a : ℚ} (h1 : -1 ≤ a) (h2 : a ≤ 1) :
    safeAdjustment a = a := by
  unfold safeAdjustment
  rw [min_eq_right h2, max_eq_right h1]

lemma safeAdjustment_idem (a : ℚ) :
    safeAdjustment (safeAdjustment a) = safeAdjustment a :=
  safeAdjustment_of_mem (safeAdjustment_mem a).1 (safeAdjustment_mem a).2

/-- C3: for every adjustment input to the ExposureStage, the transform
parameters are computed from the clamped value `a` in `[-1, 1]`:
gamma is `1 - 0.5 a` for `a ≥ 0` and `1 + 0.8 |a|` for `a < 0`,
brightness is `1 + 0.3 a`, contrast is `1 + 0.1 a` for `a ≥ 0` and
`1 - 0.1 |a|` for `a < 0`, and the linear offset `-(contrast - 1) * 128`
fixes the input value 128.  Adjustment 0 yields gamma, brightness and
contrast all 1; adjustment 1 yields gamma 0.5; adjustment -1 yields
gamma 1.8; and any input yields the same parameters as its clamp to
`[-1, 1]` (so out-of-range inputs behave as their nearest bound). -/
theorem exposure_parameters (a : ℚ) :
    exposureGamma a =
      (if 0 ≤ safeAdjustment a then 1 - safeAdjustment a * (0.5 : ℚ)
       else 1 + |safeAdjustment a| * (0.8 : ℚ))
  ∧ exposureBrightness a = 1 + safeAdjustment a * (0.3 : ℚ)
  ∧ exposureContrast a =
      (if 0 ≤ safeAdjustment a then 1 + safeAdjustment a * (0.1 : ℚ)
       else 1 - |safeAdjustment a| * (0.1 : ℚ))
  ∧ exposureLinearOffset a = -(exposureContrast a - 1) * 128
  ∧ exposureContrast a * 128 + exposureLinearOffset a = 128
  ∧ exposureGamma 0 = 1 ∧ exposureBrightness 0 = 1 ∧ exposureContrast 0 = 1
  ∧ exposureGamma 1 = (0.5 : ℚ) ∧ exposureGamma (-1) = (1.8 : ℚ)
  ∧ exposureGamma a = exposureGamma (max (-1) (min 1 a))
  ∧ exposureBrightness a = exposureBrightness (max (-1) (min 1 a))
  ∧ exposureContrast a = exposureContrast (max (-1) (min 1 a)) := by
  have hclamp : max (-1) (min 1 a) = safeAdjustment a := rfl
  refine ⟨rfl, rfl, rfl, rfl, ?_, ?_, ?_, ?_, ?_, ?_, ?_, ?_, ?_⟩
  · unfold exposureLinearOffset; ring
  · norm_num [exposureGamma, safeAdjustment]
  · norm_num [exposureBrightness, safeAdjustment]
  · norm_num [exposureContrast, safeAdjustment]
  · norm_num [exposureGamma, safeAdjustment]
  · norm_num [exposureGamma, safeAdjustment]
  · rw [hclamp]; simp only [exposureGamma, safeAdjustment_idem]
  · rw [hclamp]; simp only [exposureBrightness, safeAdjustment_idem]
  · rw [hclamp]; simp only [exposureContrast, safeAdjustment_idem]

/-- C4: when `headObject` fails with the not-found error (`NoSuchKey`),
the validator returns an invalid `ValidationResult` with error message
`File not found` instead of throwing; when `headObject` fails with any
other error, the validator does not return a result but throws (the error
propagates to the workflow engine). -/
theorem validator_head_failure (e : JsError) :
    (e.name = "NoSuchKey" →
      validatorHandler (Except.error e)
        = Except.ok ⟨false, none, none, some "File not found"⟩)
  ∧ (e.name ≠ "NoSuchKey" →
      validatorHandler (Except.error e)
        = Except.error ⟨"Error", "Validation failed: " ++ e.message⟩) := by
  constructor
  · intro h; simp [validatorHandler, h]
  · intro h; simp [validatorHandler, h]

/-- Witness for C4 at concrete errors: a thrown `NoSuchKey` becomes the
`File not found` result, a thrown `AccessDenied` is rethrown. -/
theorem validator_head_failure_witness :
    validatorHandler (Except.error ⟨"NoSuchKey", "missing"⟩)
        = Except.ok ⟨false, none, none, some "File not found"⟩
  ∧ validatorHandler (Except.error ⟨"AccessDenied", "denied"⟩)
        = Except.error ⟨"Error", "Validation failed: denied"⟩ :=
  ⟨(validator_head_failure ⟨"NoSuchKey", "missing"⟩).1 rfl,
   (validator_head_failure ⟨"AccessDenied", "denied"⟩).2 (by decide)⟩

lemma string_data_injective {a b : String} (h : a.data = b.data) : a = b := by
  cases a; cases b; exact congrArg String.mk h

lemma string_append_assoc (a b c : String) : (a ++ b) ++ c = a ++ (b ++ c) := by
  show String.mk (a.data ++ b.data ++ c.data) = String.mk (a.data ++ (b.data ++ c.data))
  exact congrArg String.mk (List.append_assoc a.data b.data c.data)

lemma allowed_startsWith_image (ct : String) (h : isAllowedContentType ct = true) :
    jsStartsWith ct "image/" = true := by
  have hmem : ct = "image/jpeg" ∨ ct = "image/png" ∨ ct = "image/webp" := by
    simpa [isAllowedContentType, ALLOWED_CONTENT_TYPES] using h
  rcases hmem with h1 | h1 | h1 <;> subst h1 <;> decide

lemma invalid_ct_msg_ne (ct : String) :
    "Invalid content type: " ++ ct ≠ "File is not a valid image" := by
  intro h
  have h1 : (("Invalid content type: " ++ ct).data.head?)
      = (("File is not a valid image" : String).data.head?) := by rw [h]
  have h2 : (("Invalid content type: " ++ ct).data.head?) = some 'I' := rfl
  have h3 : (("File is not a valid image" : String).data.head?) = some 'F' := rfl
  rw [h2, h3] at h1
  exact absurd h1 (by decide)

lemma size_msg_ne (x : String) :
    "File size (" ++ x ≠ "File is not a valid image" := by
  intro h
  have h1 : ((("File size (" ++ x).data.drop 5).head?)
      = ((("File is not a valid image" : String).data.drop 5).head?) := by rw [h]
  have h2 : ((("File size (" ++ x).data.drop 5).head?) = some 's' := rfl
  have h3 : ((("File is not a valid image" : String).data.drop 5).head?) = some 'i' := rfl
  rw [h2, h3] at h1
  exact absurd h1 (by decide)

/-- C7: the validator checks head-object metadata in order: a present but
disallowed content type is invalid with an error naming that type
(regardless of size); an allowed content type whose length exceeds
`MAX_FILE_SIZE` is invalid with an error naming the actual size and the
maximum; and an object passing all checks is valid with its content type
and size echoed. -/
theorem validator_metadata_checks (m : HeadObjectMeta) (ct : String)
    (hct : m.contentType = some ct) (hne : ct ≠ "") :
    (isAllowedContentType ct = false →
      validatorHandler (Except.ok m)
        = Except.ok ⟨false, some ct, none, some ("Invalid content type: " ++ ct)⟩)
  ∧ (∀ len : Nat, isAllowedContentType ct = true → m.contentLength = some len →
      len > MAX_FILE_SIZE →
      validatorHandler (Except.ok m)
        = Except.ok ⟨false, some ct, some len,
            some ("File size (" ++ toString len ++ ") exceeds maximum ("
              ++ toString MAX_FILE_SIZE ++ ")")⟩)
  ∧ (isAllowedContentType ct = true →
      (∀ len : Nat, m.contentLength = some len → len ≤ MAX_FILE_SIZE) →
      validatorHandler (Except.ok m)
        = Except.ok ⟨true, some ct, m.contentLength, none⟩) := by
  have htr : truthyStr (some ct) = true := by
    simp [truthyStr, hne]
  refine ⟨?_, ?_, ?_⟩
  · intro hna
    simp [validatorHandler, hct, htr, hna]
  · intro len hal hlen hgt
    have hlen0 : len ≠ 0 := by
      have : 0 < MAX_FILE_SIZE := by norm_num [MAX_FILE_SIZE]
      omega
    simp [validatorHandler, hct, htr, hal, hlen, truthyNat, hlen0, hgt]
  · intro hal hle
    have hsw := allowed_startsWith_image ct hal
    cases hcl : m.contentLength with
    | none => simp [validatorHandler, hct, htr, hal, hcl, truthyNat, hsw]
    | some len =>
      have hnot : ¬ (len > MAX_FILE_SIZE) := not_lt.mpr (hle len hcl)
      simp [validatorHandler, hct, htr, hal, hcl, truthyNat, hsw, hnot]

/-- Witness for C7 at concrete metadata: an `application/pdf` object is
invalid naming the type, a 30 MiB JPEG is invalid naming actual and
maximum sizes, and a small PNG is valid with type and size echoed. -/
theorem validator_metadata_checks_witness :
    validatorHandler (Except.ok ⟨some "application/pdf", some 100⟩)
      = Except.ok ⟨false, some "application/pdf", none,
          some "Invalid content type: application/pdf"⟩
  ∧ validatorHandler (Except.ok ⟨some "image/jpeg", some 31457280⟩)
      = Except.ok ⟨false, some "image/jpeg", some 31457280,
          some "File size (31457280) exceeds maximum (26214400)"⟩
  ∧ validatorHandler (Except.ok ⟨some "image/png", some 5⟩)
      = Except.ok ⟨true, some "image/png", some 5, none⟩ :=
  ⟨(validator_metadata_checks ⟨some "application/pdf", some 100⟩
      "application/pdf" rfl (by decide)).1 (by decide),
   (validator_metadata_checks ⟨some "image/jpeg", some 31457280⟩
      "image/jpeg" rfl (by decide)).2.1 31457280 (by decide) rfl (by norm_num [MAX_FILE_SIZE]),
   (validator_metadata_checks ⟨some "image/png", some 5⟩
      "image/png" rfl (by decide)).2.2 (by decide)
      (fun len hlen => by injection hlen with h; rw [← h]; norm_num [MAX_FILE_SIZE])⟩

/-- C10 (implicit): the defense-in-depth branch of the validator that
returns the error `File is not a valid image` is unreachable: every
content type of the allow-list starts with `image/`, so once the
allow-list check has passed the `startsWith` check always passes, and no
result the validator ever returns carries that error. -/
theorem validator_image_branch_unreachable
    (o : Except JsError HeadObjectMeta) (r : ValidationResult)
    (h : validatorHandler o = Except.ok r) :
    r.error ≠ some "File is not a valid image" := by
  intro habs
  cases o with
  | error e =>
    by_cases hn : e.name = "NoSuchKey"
    · simp [validatorHandler, hn] at h
      rw [← h] at habs
      exact absurd habs (by decide)
    · simp [validatorHandler, hn] at h
  | ok m =>
    by_cases h1 : truthyStr m.contentType
    · by_cases h2 : isAllowedContentType (m.contentType.getD "")
      · by_cases h3 : (truthyNat m.contentLength
            && decide (m.contentLength.getD 0 > MAX_FILE_SIZE)) = true
        · simp [validatorHandler, h1, h2, h3] at h
          rw [← h] at habs
          simp at habs
          rw [string_append_assoc, string_append_assoc] at habs
          exact size_msg_ne _ habs
        · by_cases h4 : jsStartsWith (m.contentType.getD "") "image/"
          · simp [validatorHandler, h1, h2, h3, h4] at h
            rw [← h] at habs
            simp at habs
          · exact absurd (allowed_startsWith_image _ h2) h4
      · simp [validatorHandler, h1, h2] at h
        rw [← h] at habs
        simp at habs
        exact invalid_ct_msg_ne _ habs
    · simp [validatorHandler, h1] at h
      rw [← h] at habs
      exact absurd habs (by decide)

/-- Witness for C10: the theorem applied to a concrete passing object. -/
theorem validator_image_branch_unreachable_witness :
    (⟨true, some "image/png", some 5, none⟩ : ValidationResult).error
      ≠ some "File is not a valid image" :=
  validator_image_branch_unreachable (Except.ok ⟨some "image/png", some 5⟩)
    ⟨true, some "image/png", some 5, none⟩ rfl

lemma data_append (a b : String) : (a ++ b).data = a.data ++ b.data := rfl

lemma jsStartsWith_append (a b : String) : jsStartsWith (a ++ b) a = true := by
  unfold jsStartsWith
  rw [List.isPrefixOf_iff_prefix, data_append]
  exact List.prefix_append _ _

lemma generateFileKey_uploads (f : String) (n : Nat) (r : String) :
    generateFileKey f "uploads" n r
      = "uploads/" ++ (toString n ++ "-" ++ r ++ "-" ++ sanitizeFilename f) := by
  unfold generateFileKey
  have h0 : ("uploads" ++ "/" : String) = "uploads/" := by decide
  simp only [string_append_assoc]
  rw [← string_append_assoc "uploads" "/", h0]

lemma generateFileKey_startsWith (f : String) (n : Nat) (r : String) :
    jsStartsWith (generateFileKey f "uploads" n r) "uploads/" = true := by
  rw [generateFileKey_uploads]
  exact jsStartsWith_append _ _

/-- C9: `generateFileKey` is total (never throws) and returns
`prefix/<timestamp>-<token>-<sanitizedFilename>`, where the sanitized
filename is the input with every character outside `[A-Za-z0-9._-]`
replaced by an underscore (characters in that class — including
underscore, dot and hyphen — are preserved: the source regex omits the
underscore from its class, but replacing an underscore with an underscore
is the identity).  The empty filename yields an empty tail segment. -/
theorem generate_file_key_spec (filename pfx : String) (nowMs : Nat)
    (randomId : String) :
    generateFileKey filename pfx nowMs randomId
      = pfx ++ "/" ++ toString nowMs ++ "-" ++ randomId ++ "-" ++ sanitizeFilename filename
  ∧ (sanitizeFilename filename).data
      = filename.data.map (fun c =>
          if ('a' ≤ c && c ≤ 'z') || ('A' ≤ c && c ≤ 'Z') || ('0' ≤ c && c ≤ '9')
             || c == '.' || c == '_' || c == '-' then c else '_')
  ∧ sanitizeFilename "" = "" := by
  refine ⟨rfl, ?_, rfl⟩
  have hpt : ∀ c : Char, (if allowedKeyChar c then c else '_')
      = (if ('a' ≤ c && c ≤ 'z') || ('A' ≤ c && c ≤ 'Z') || ('0' ≤ c && c ≤ '9')
           || c == '.' || c == '_' || c == '-' then c else '_') := by
    intro c
    by_cases hc : c = '_'
    · subst hc; rfl
    · have hb : (c == '_') = false := by simp [hc]
      simp [allowedKeyChar, hb]
  show filename.data.map (fun c => if allowedKeyChar c then c else '_') = _
  exact List.map_congr_left (fun c _ => hpt c)

/-- Counterexample for C6 as stated: a request whose `fileSize` is
negative (hence outside 1..25 MiB) is not rejected with a 400 — the
handler returns 200 and a URL for it. -/
theorem presign_negative_size_counterexample :
    (presignedUrlHandler 0 "tok" "https://signed.example"
        ⟨some "a.jpg", some "image/png", some (-5)⟩).statusCode = 200
  ∧ (presignedUrlHandler 0 "tok" "https://signed.example"
        ⟨some "a.jpg", some "image/png", some (-5)⟩).uploadUrl
      = some "https://signed.example"
  ∧ ((-5 : Int) < 1) := by
  refine ⟨rfl, rfl, by norm_num⟩

/-- C6 (amended): the presign handler returns 400 with the distinct
missing-fields message when a field is absent, empty or zero; otherwise
400 with the distinct invalid-type message when the content type is not
allowed; otherwise 400 with the distinct size message when `fileSize`
exceeds 25 MiB; otherwise — including for negative `fileSize`, which the
code does not reject — 200 with the signed URL, a key under `uploads/`,
and an expiry exactly 3600 seconds after issuance.  Every response is
either 400 or 200, and a 400 never carries an upload URL. -/
theorem presign_handler_cases (nowMs : Nat) (randomId signedUrl : String)
    (req : UploadRequest) :
    ((!truthyStr req.filename || !truthyStr req.contentType
        || !truthyInt req.fileSize) = true →
      presignedUrlHandler nowMs randomId signedUrl req
        = ⟨400, some missingFieldsMsg, none, none, none⟩)
  ∧ ((!truthyStr req.filename || !truthyStr req.contentType
        || !truthyInt req.fileSize) = false →
      isAllowedContentType (req.contentType.getD "") = false →
      presignedUrlHandler nowMs randomId signedUrl req
        = ⟨400, some invalidTypeMsg, none, none, none⟩)
  ∧ ((!truthyStr req.filename || !truthyStr req.contentType
        || !truthyInt req.fileSize) = false →
      isAllowedContentType (req.contentType.getD "") = true →
      req.fileSize.getD 0 > (MAX_FILE_SIZE : Int) →
      presignedUrlHandler nowMs randomId signedUrl req
        = ⟨400, some sizeExceedsMsg, none, none, none⟩)
  ∧ ((!truthyStr req.filename || !truthyStr req.contentType
        || !truthyInt req.fileSize) = false →
      isAllowedContentType (req.contentType.getD "") = true →
      req.fileSize.getD 0 ≤ (MAX_FILE_SIZE : Int) →
      presignedUrlHandler nowMs randomId signedUrl req
        = ⟨200, none, some signedUrl,
            some (generateFileKey (req.filename.getD "") "uploads" nowMs randomId),
            some (nowMs + 3600 * 1000)⟩
      ∧ jsStartsWith
          (generateFileKey (req.filename.getD "") "uploads" nowMs randomId)
          "uploads/" = true)
  ∧ ((presignedUrlHandler nowMs randomId signedUrl req).statusCode = 400
      ∨ (presignedUrlHandler nowMs randomId signedUrl req).statusCode = 200)
  ∧ ((presignedUrlHandler nowMs randomId signedUrl req).statusCode = 400 →
      (presignedUrlHandler nowMs randomId signedUrl req).uploadUrl = none)
  ∧ missingFieldsMsg ≠ invalidTypeMsg ∧ missingFieldsMsg ≠ sizeExceedsMsg
  ∧ invalidTypeMsg ≠ sizeExceedsMsg := by
  refine ⟨?_, ?_, ?_, ?_, ?_, ?_, by decide, by decide, by decide⟩
  · intro h1
    simp [presignedUrlHandler, h1]
  · intro h1 h2
    simp [presignedUrlHandler, h1, h2]
  · intro h1 h2 h3
    simp [presignedUrlHandler, h1, h2, h3]
  · intro h1 h2 h3
    have h3n : ¬ (req.fileSize.getD 0 > (MAX_FILE_SIZE : Int)) := not_lt.mpr h3
    exact ⟨by simp [presignedUrlHandler, h1, h2, h3n],
      generateFileKey_startsWith _ _ _⟩
  · unfold presignedUrlHandler
    split
    · left; rfl
    · split
      · left; rfl
      · split
        · left; rfl
        · right; rfl
  · unfold presignedUrlHandler
    split
    · intro _; rfl
    · split
      · intro _; rfl
      · split
        · intro _; rfl
        · intro h; simp at h

/-- Witness for C6 at concrete requests: one per branch (missing field,
disallowed type, oversized, valid). -/
theorem presign_handler_cases_witness :
    presignedUrlHandler 1000 "tok" "https://u" ⟨none, some "image/png", some 5⟩
      = ⟨400, some missingFieldsMsg, none, none, none⟩
  ∧ presignedUrlHandler 1000 "tok" "https://u"
        ⟨some "a.pdf", some "application/pdf", some 5⟩
      = ⟨400, some invalidTypeMsg, none, none, none⟩
  ∧ presignedUrlHandler 1000 "tok" "https://u"
        ⟨some "a.jpg", some "image/jpeg", some 26214401⟩
      = ⟨400, some sizeExceedsMsg, none, none, none⟩
  ∧ (presignedUrlHandler 1000 "tok" "https://u"
        ⟨some "a.jpg", some "image/jpeg", some 5⟩
      = ⟨200, none, some "https://u",
          some (generateFileKey "a.jpg" "uploads" 1000 "tok"),
          some (1000 + 3600 * 1000)⟩
     ∧ jsStartsWith (generateFileKey "a.jpg" "uploads" 1000 "tok")
         "uploads/" = true) :=
  ⟨(presign_handler_cases 1000 "tok" "https://u"
      ⟨none, some "image/png", some 5⟩).1 (by decide),
   (presign_handler_cases 1000 "tok" "https://u"
      ⟨some "a.pdf", some "application/pdf", some 5⟩).2.1 (by decide) (by decide),
   (presign_handler_cases 1000 "tok" "https://u"
      ⟨some "a.jpg", some "image/jpeg", some 26214401⟩).2.2.1
      (by decide) (by decide) (by decide),
   (presign_handler_cases 1000 "tok" "https://u"
      ⟨some "a.jpg", some "image/jpeg", some 5⟩).2.2.2.1
      (by decide) (by decide) (by decide)⟩

lemma round_mono_q {x y : ℚ} (h : x ≤ y) : round x ≤ round y := by
  rw [round_eq, round_eq]
  exact Int.floor_le_floor (by linarith)

/-- Counterexample for C2 as stated: for a known 800×600 source with
neither width nor height requested, the computed target is the source
size 800×600, not the claimed default 1920×1080 (the 1920/1080 literals
are only the fallback when the source dimensions are unknown). -/
theorem resize_default_dimensions_counterexample :
    resizeTargetDimensions none none true (some 800) (some 600)
      = ((800 : ℤ), (600 : ℤ))
  ∧ resizeTargetDimensions none none true (some 800) (some 600)
      ≠ ((1920 : ℤ), (1080 : ℤ)) := by
  exact ⟨by decide, by decide⟩

/-- C2 (amended): for a source with known nonzero dimensions and aspect
ratio maintained: with neither width nor height given the target is the
source size; with only width given the height is `round(width / aspect)`;
with only height given the width is `round(height * aspect)`; with both
given, both source dimensions are scaled by
`min(width/sourceWidth, height/sourceHeight)` and the rounded results
never exceed either requested bound. -/
theorem resize_target_dimensions_cases (w h w0 h0 : Nat)
    (hw0 : w0 ≠ 0) (hh0 : h0 ≠ 0) (hw : w ≠ 0) (hh : h ≠ 0) :
    resizeTargetDimensions none none true (some w0) (some h0)
      = ((w0 : ℤ), (h0 : ℤ))
  ∧ resizeTargetDimensions (some w) none true (some w0) (some h0)
      = ((w : ℤ), round ((w : ℚ) / ((w0 : ℚ) / (h0 : ℚ))))
  ∧ resizeTargetDimensions none (some h) true (some w0) (some h0)
      = (round ((h : ℚ) * ((w0 : ℚ) / (h0 : ℚ))), (h : ℤ))
  ∧ resizeTargetDimensions (some w) (some h) true (some w0) (some h0)
      = (round ((w0 : ℚ) * min ((w : ℚ) / (w0 : ℚ)) ((h : ℚ) / (h0 : ℚ))),
         round ((h0 : ℚ) * min ((w : ℚ) / (w0 : ℚ)) ((h : ℚ) / (h0 : ℚ))))
  ∧ (resizeTargetDimensions (some w) (some h) true (some w0) (some h0)).1
      ≤ (w : ℤ)
  ∧ (resizeTargetDimensions (some w) (some h) true (some w0) (some h0)).2
      ≤ (h : ℤ) := by
  have hw0q : (0 : ℚ) < (w0 : ℚ) := by exact_mod_cast Nat.pos_of_ne_zero hw0
  have hh0q : (0 : ℚ) < (h0 : ℚ) := by exact_mod_cast Nat.pos_of_ne_zero hh0
  have e1 : resizeTargetDimensions none none true (some w0) (some h0)
      = ((w0 : ℤ), (h0 : ℤ)) := by
    simp [resizeTargetDimensions, jsOrNat, truthyNat, hw0, hh0]
  have e2 : resizeTargetDimensions (some w) none true (some w0) (some h0)
      = ((w : ℤ), round ((w : ℚ) / ((w0 : ℚ) / (h0 : ℚ)))) := by
    simp [resizeTargetDimensions, jsOrNat, truthyNat, hw0, hh0, hw]
  have e3 : resizeTargetDimensions none (some h) true (some w0) (some h0)
      = (round ((h : ℚ) * ((w0 : ℚ) / (h0 : ℚ))), (h : ℤ)) := by
    simp [resizeTargetDimensions, jsOrNat, truthyNat, hw0, hh0, hh]
  have e4 : resizeTargetDimensions (some w) (some h) true (some w0) (some h0)
      = (round ((w0 : ℚ) * min ((w : ℚ) / (w0 : ℚ)) ((h : ℚ) / (h0 : ℚ))),
         round ((h0 : ℚ) * min ((w : ℚ) / (w0 : ℚ)) ((h : ℚ) / (h0 : ℚ)))) := by
    simp [resizeTargetDimensions, jsOrNat, truthyNat, hw0, hh0, hw, hh]
  have b1 : (w0 : ℚ) * min ((w : ℚ) / (w0 : ℚ)) ((h : ℚ) / (h0 : ℚ)) ≤ (w : ℚ) := by
    have hle := min_le_left ((w : ℚ) / (w0 : ℚ)) ((h : ℚ) / (h0 : ℚ))
    calc (w0 : ℚ) * min ((w : ℚ) / (w0 : ℚ)) ((h : ℚ) / (h0 : ℚ))
        ≤ (w0 : ℚ) * ((w : ℚ) / (w0 : ℚ)) :=
          mul_le_mul_of_nonneg_left hle (le_of_lt hw0q)
      _ = (w : ℚ) := by
          rw [mul_comm]; exact div_mul_cancel₀ _ (ne_of_gt hw0q)
  have b2 : (h0 : ℚ) * min ((w : ℚ) / (w0 : ℚ)) ((h : ℚ) / (h0 : ℚ)) ≤ (h : ℚ) := by
    have hle := min_le_right ((w : ℚ) / (w0 : ℚ)) ((h : ℚ) / (h0 : ℚ))
    calc (h0 : ℚ) * min ((w : ℚ) / (w0 : ℚ)) ((h : ℚ) / (h0 : ℚ))
        ≤ (h0 : ℚ) * ((h : ℚ) / (h0 : ℚ)) :=
          mul_le_mul_of_nonneg_left hle (le_of_lt hh0q)
      _ = (h : ℚ) := by
          rw [mul_comm]; exact div_mul_cancel₀ _ (ne_of_gt hh0q)
  refine ⟨e1, e2, e3, e4, ?_, ?_⟩
  · rw [e4]
    calc round ((w0 : ℚ) * min ((w : ℚ) / (w0 : ℚ)) ((h : ℚ) / (h0 : ℚ)))
        ≤ round ((w : ℚ)) := round_mono_q b1
      _ = (w : ℤ) := round_natCast w
  · rw [e4]
    calc round ((h0 : ℚ) * min ((w : ℚ) / (w0 : ℚ)) ((h : ℚ) / (h0 : ℚ)))
        ≤ round ((h : ℚ)) := round_mono_q b2
      _ = (h : ℤ) := round_natCast h

/-- Witness for C2 at the spec example: a 3840×2160 source with requested
width 1920 and aspect ratio maintained yields 1920×1080. -/
theorem resize_target_dimensions_witness :
    resizeTargetDimensions (some 1920) none true (some 3840) (some 2160)
      = ((1920 : ℤ), round ((1920 : ℚ) / ((3840 : ℚ) / (2160 : ℚ))))
  ∧ resizeTargetDimensions (some 1920) none true (some 3840) (some 2160)
      = ((1920 : ℤ), (1080 : ℤ)) :=
  ⟨(resize_target_dimensions_cases 1920 5 3840 2160
      (by decide) (by decide) (by decide) (by decide)).2.1,
   by
    rw [(resize_target_dimensions_cases 1920 5 3840 2160
      (by decide) (by decide) (by decide) (by decide)).2.1]
    norm_num [round_eq]⟩

lemma charListContains_of_leading {s pat : List Char}
    (h : pat.isPrefixOf s = true) : charListContains s pat = true := by
  cases s with
  | nil =>
    cases pat with
    | nil => rfl
    | cons c cs => simp [List.isPrefixOf] at h
  | cons c rest => simp [charListContains, h]

lemma containsSubstring_of_startsWith {s pat : String}
    (h : jsStartsWith s pat = true) : containsSubstring s pat = true :=
  charListContains_of_leading h

lemma charListReplaceFirst_of_leading {s pat : List Char} (repl : List Char)
    (h : pat.isPrefixOf s = true) :
    charListReplaceFirst s pat repl = repl ++ s.drop pat.length := by
  cases s with
  | nil =>
    cases pat with
    | nil => simp [charListReplaceFirst]
    | cons c cs => simp [List.isPrefixOf] at h
  | cons c rest => simp [charListReplaceFirst, h]

/-- Counterexample for C8 as stated: the key `uploads/processed/img.png`
lives under `uploads/`, so by the claim its `uploads/` prefix should be
replaced; but the code tests `includes(processed/)`, which is true here,
so it keeps the key in place and only replaces the extension. -/
theorem exposure_output_key_counterexample :
    exposureOutputKey "uploads/processed/img.png"
      = "uploads/processed/img-exposure-adjusted.jpg"
  ∧ exposureOutputKeySpec "uploads/processed/img.png"
      = "processed/processed/img-exposure-adjusted.jpg"
  ∧ exposureOutputKey "uploads/processed/img.png"
      ≠ exposureOutputKeySpec "uploads/processed/img.png" := by
  exact ⟨by decide, by decide, by decide⟩

/-- C8 (amended): for a key that starts with `processed/` the exposure
stage replaces only the final extension with `-exposure-adjusted.jpg`
(the key stays in place); for a key that starts with `uploads/` and does
not contain `processed/` anywhere, the leading `uploads/` (its first
occurrence) is replaced by `processed/` and the same extension
replacement is applied.  The code's branch condition is substring
containment of `processed/`, not a prefix test. -/
theorem exposure_output_key_cases (key : String) :
    (jsStartsWith key "processed/" = true →
      exposureOutputKey key = replaceLastExt key "-exposure-adjusted.jpg")
  ∧ (containsSubstring key "processed/" = false →
      jsStartsWith key "uploads/" = true →
      exposureOutputKey key
        = replaceLastExt ("processed/" ++ String.mk (key.data.drop 8))
            "-exposure-adjusted.jpg") := by
  constructor
  · intro h
    have hc := containsSubstring_of_startsWith h
    simp [exposureOutputKey, hc]
  · intro h1 h2
    have h3 := charListReplaceFirst_of_leading ("processed/" : String).data h2
    have h4 : (("uploads/" : String).data).length = 8 := rfl
    rw [h4] at h3
    simp [exposureOutputKey, h1, replaceFirstStr, h3]
    rfl

/-- Witness for C8 at concrete keys: one already-processed key replaced in
place, one uploads key moved to `processed/`. -/
theorem exposure_output_key_cases_witness :
    exposureOutputKey "processed/a.png"
      = replaceLastExt "processed/a.png" "-exposure-adjusted.jpg"
  ∧ exposureOutputKey "uploads/b.jpg"
      = replaceLastExt ("processed/" ++ String.mk ("uploads/b.jpg".data.drop 8))
          "-exposure-adjusted.jpg" :=
  ⟨(exposure_output_key_cases "processed/a.png").1 (by decide),
   (exposure_output_key_cases "uploads/b.jpg").2 (by decide) (by decide)⟩

/-- C1 (evaluation of the defect): the string hashed to derive the
execution name contains the delivery-time `Date.now()` value, so the same
object (same bucket, same key) delivered at two different times hashes
two different inputs — the second start attempt does not collide with the
first and no already-exists error occurs.  The absorption path itself is
correct: when `startExecution` does throw `ExecutionAlreadyExists`,
`processS3Record` completes successfully with no further action. -/
theorem execution_name_depends_on_delivery_time :
    executionHashInput "bucket-a" "uploads/photo.jpg" 1000
      ≠ executionHashInput "bucket-a" "uploads/photo.jpg" 2000
  ∧ processS3Record (fun _ => Except.error ⟨"ExecutionAlreadyExists", "exists"⟩)
      ⟨"bucket-a", "uploads/photo.jpg", 5, "2024-01-01T00:00:00Z"⟩
      = ([⟨"bucket-a", "uploads/photo.jpg", "image/jpeg", 5,
            "2024-01-01T00:00:00Z"⟩],
         Except.ok ()) := by
  exact ⟨by decide, rfl⟩

lemma processS3Record_calls (service : ProcessingInput → Except JsError String)
    (r : S3EventRecord) (k : String) (hdec : decodeS3Key r.objectKey = some k)
    (hup : jsStartsWith k "uploads/" = true) (hnf : jsEndsWith k "/" = false) :
    (processS3Record service r).1 = [mkProcessingInput r k] := by
  unfold processS3Record
  rw [hdec]
  simp only [hup, hnf, Bool.not_true, Bool.false_eq_true, if_false]
  cases hsv : service (mkProcessingInput r k) with
  | ok a => simp [hsv]
  | error e => simp [hsv]; split <;> rfl

/-- C5: batch records are processed with per-record isolation.  The batch
driver catches each record's failure (the result type of
`orchestratorHandler` has no error case, so the handler always completes),
and for every record of the batch whose decoded key is an uploads object,
its `startExecution` call is made during the batch run — and the calls
made for a record do not depend on how `startExecution` behaves
(succeeds or throws) on this or any other record. -/
theorem orchestrator_batch_isolation
    (service serviceB : ProcessingInput → Except JsError String)
    (records : List S3EventRecord) (r : S3EventRecord) (k : String)
    (hr : r ∈ records) (hdec : decodeS3Key r.objectKey = some k)
    (hup : jsStartsWith k "uploads/" = true)
    (hnf : jsEndsWith k "/" = false) :
    mkProcessingInput r k ∈ startedInputs service records
  ∧ (processS3Record service r).1 = (processS3Record serviceB r).1 := by
  have h1 := processS3Record_calls service r k hdec hup hnf
  have h2 := processS3Record_calls serviceB r k hdec hup hnf
  refine ⟨?_, by rw [h1, h2]⟩
  unfold startedInputs orchestratorHandler
  rw [List.mem_flatten]
  refine ⟨[mkProcessingInput r k], ?_, by simp⟩
  simp only [List.map_map]
  rw [List.mem_map]
  exact ⟨r, hr, by simp [Function.comp, h1]⟩

/-- Witness for C5: a two-record batch in which `startExecution` throws
for the first record; the second record's call is still made, and its
call log is the same as under a service that never throws. -/
theorem orchestrator_batch_isolation_witness :
    mkProcessingInput ⟨"b", "uploads/good.jpg", 2, "t2"⟩ "uploads/good.jpg"
      ∈ startedInputs
          (fun inp => if inp.key == "uploads/bad.jpg"
            then Except.error ⟨"Boom", "boom"⟩ else Except.ok "arn")
          [⟨"b", "uploads/bad.jpg", 1, "t1"⟩, ⟨"b", "uploads/good.jpg", 2, "t2"⟩]
  ∧ (processS3Record (fun inp => if inp.key == "uploads/bad.jpg"
        then Except.error ⟨"Boom", "boom"⟩ else Except.ok "arn")
        ⟨"b", "uploads/good.jpg", 2, "t2"⟩).1
      = (processS3Record (fun _ => Except.ok "arn")
        ⟨"b", "uploads/good.jpg", 2, "t2"⟩).1 :=
  orchestrator_batch_isolation _ _ _ ⟨"b", "uploads/good.jpg", 2, "t2"⟩
    "uploads/good.jpg" (by decide) (by decide) (by decide) (by decide)
